import Mathlib

set_option autoImplicit false

/-!
Verification of the todo/health tRPC routers of this repository.

Two parallel implementations of the todo router exist in the source:

* an in-memory variant (module-level array `todos`, records with a
  `completed` field) whose handlers are `getAll`, `add`, `toggle`,
  `delete`;
* a database-backed variant whose handlers call the Prisma client
  (`prisma.todo.findMany`, `create`, `findUnique`/`update`, `delete`)
  on rows whose completion column is named `done`.

The ambient mutable state (the shared array, or the database table) is
embedded as an explicit list threaded through every operation; each
handler becomes a function from the state and its request payload to a
pair of the response and the successor state.  Quantities the runtime
produces (the randomly generated id string, the clock reading, the
store-generated id and timestamp) are oracle parameters.  Input
validation by the declared zod schema runs before the handler, so a
rejected payload leaves the state untouched.
-/

namespace TodoSpec

/-- Record held by the in-memory variant: an object with fields
`id: string`, `text: string`, `completed: boolean`, `createdAt: Date`.
Timestamps are modelled as naturals. -/
structure Todo where
  id : String
  text : String
  completed : Bool
  createdAt : Nat
deriving Repr, DecidableEq

/-- Row of the Prisma `Todo` model used by the database-backed variant:
same shape, but the completion column is named `done` (the handlers read
and write `todo.done`). -/
structure DbTodo where
  id : String
  text : String
  done : Bool
  createdAt : Nat
deriving Repr, DecidableEq

/-- Error outcomes surfaced to the caller by these routers:
`badRequest` when the zod input schema rejects the payload before the
handler runs, and `notFound` when the Prisma client rejects a
`delete` on a missing record (error P2025), which tRPC maps to an error
response rather than a result. -/
inductive TrpcError where
  | badRequest
  | notFound
deriving Repr, DecidableEq

/-- Response of `health.status`. -/
structure HealthPayload where
  status : String
deriving Repr, DecidableEq

/-- Ids of the todos in a state, in list order. -/
def ids (s : List Todo) : List String :=
  s.map Todo.id

@[simp] theorem ids_nil : ids [] = [] := rfl

@[simp] theorem ids_cons (t : Todo) (ts : List Todo) :
    ids (t :: ts) = t.id :: ids ts := rfl

@[simp] theorem ids_append (l₁ l₂ : List Todo) :
    ids (l₁ ++ l₂) = ids l₁ ++ ids l₂ := by
  simp [ids]

/-- Ids of the rows in a database state, in row order. -/
def dbIds (d : List DbTodo) : List String :=
  d.map DbTodo.id

@[simp] theorem dbIds_nil : dbIds [] = [] := rfl

@[simp] theorem dbIds_cons (t : DbTodo) (ts : List DbTodo) :
    dbIds (t :: ts) = t.id :: dbIds ts := rfl

/-! ### The in-memory todo router -/

/-- Handler `todos.getAll` of the in-memory variant: a query returning
the shared list as it stands, without modifying it. -/
def getAll (s : List Todo) : List Todo × List Todo :=
  (s, s)

/-- Handler `todos.add` of the in-memory variant.  The input schema
`z.object(\x7b text: z.string().min(1) \x7d)` rejects a text of length
below one before the handler runs; otherwise the handler builds
`\x7b id: Math.random().toString(36).substr(2, 9), text, completed: false,
createdAt: new Date() \x7d`, pushes it on the end of the array and returns
it.  `newId` stands for the random string and `now` for the clock. -/
def addProc (s : List Todo) (newId text : String) (now : Nat) :
    Except TrpcError Todo × List Todo :=
  if 1 ≤ text.length then
    (Except.ok ⟨newId, text, false, now⟩, s ++ [⟨newId, text, false, now⟩])
  else
    (Except.error TrpcError.badRequest, s)

/-- First record of the list carrying the given id, as located by
`todos.find(t => t.id === input.id)`. -/
def findTodo : List Todo → String → Option Todo
  | [], _ => none
  | t :: ts, i => if t.id = i then some t else findTodo ts i

/-- A todo with its completion flag flipped, all other fields kept. -/
def flipT (t : Todo) : Todo :=
  ⟨t.id, t.text, !t.completed, t.createdAt⟩

/-- State effect of handler `todos.toggle` of the in-memory variant: the
found record (first match on id) has its `completed` field mutated in
place; when no record matches, the array is untouched. -/
def toggleList : List Todo → String → List Todo
  | [], _ => []
  | t :: ts, i => if t.id = i then flipT t :: ts else t :: toggleList ts i

/-- Response of handler `todos.toggle` of the in-memory variant: the
mutated record when one matched, otherwise `undefined` (modelled as
`none`, the absent-value response). -/
def toggleFound : List Todo → String → Option Todo
  | [], _ => none
  | t :: ts, i => if t.id = i then some (flipT t) else toggleFound ts i

/-- Handler `todos.toggle` of the in-memory variant, response paired
with the successor state. -/
def toggleProc (s : List Todo) (i : String) : Option Todo × List Todo :=
  (toggleFound s i, toggleList s i)

/-- Handler `todos.delete` of the in-memory variant: `findIndex` locates
the first record with the given id; if found, `splice(index, 1)` removes
it and the handler returns it; otherwise the handler returns `null` and
the array is untouched. -/
def deleteProc : List Todo → String → Option Todo × List Todo
  | [], _ => (none, [])
  | t :: ts, i =>
    if t.id = i then (some t, ts)
    else
      let r := deleteProc ts i
      (r.1, t :: r.2)

/-! ### The health router -/

/-- Handler `health.status`: a query with `z.void()` input whose body
returns the constant object with field `status` set to the string OK,
reading no state.  The todo state is threaded through to express that
the response is independent of it and leaves it unchanged. -/
def statusProc (s : List Todo) : HealthPayload × List Todo :=
  (⟨"OK"⟩, s)

/-! ### The database-backed todo router -/

/-- Row returned by `prisma.todo.findUnique(\x7b where: \x7b id \x7d \x7d)`:
the row with the given id.  The id column is the unique key of the
table, so the first match in row order is the match. -/
def dbFound : List DbTodo → String → Option DbTodo
  | [], _ => none
  | t :: ts, i => if t.id = i then some t else dbFound ts i

/-- A row with its `done` column flipped, all other columns kept. -/
def flipD (t : DbTodo) : DbTodo :=
  ⟨t.id, t.text, !t.done, t.createdAt⟩

/-- Table after `prisma.todo.update(\x7b where: \x7b id \x7d, data: \x7b done:
!todo.done \x7d \x7d)`: the row with the given id has its `done` column
replaced by the flipped value of the previously fetched row. -/
def dbUpdateDone : List DbTodo → String → List DbTodo
  | [], _ => []
  | t :: ts, i => if t.id = i then flipD t :: ts else t :: dbUpdateDone ts i

/-- Table after removing the row with the given id. -/
def dbErase : List DbTodo → String → List DbTodo
  | [], _ => []
  | t :: ts, i => if t.id = i then ts else t :: dbErase ts i

/-- Handler `todos.getAll` of the database-backed variant:
`prisma.todo.findMany()` returns every row. -/
def prismaGetAll (d : List DbTodo) : List DbTodo × List DbTodo :=
  (d, d)

/-- Handler `todos.add` of the database-backed variant: the same
`z.string().min(1)` schema guards the handler, which then calls
`prisma.todo.create(\x7b data: \x7b text \x7d \x7d)` and returns the created
row.  Modelled from the spec: the Prisma schema itself is not among the
source files; per the specification the store generates the fresh id
and creation timestamp (oracle parameters `newId`, `now` here) and a
new todo starts with its completion flag false. -/
def prismaAdd (d : List DbTodo) (newId text : String) (now : Nat) :
    Except TrpcError DbTodo × List DbTodo :=
  if 1 ≤ text.length then
    (Except.ok ⟨newId, text, false, now⟩, d ++ [⟨newId, text, false, now⟩])
  else
    (Except.error TrpcError.badRequest, d)

/-- Handler `todos.toggle` of the database-backed variant: `findUnique`
fetches the row; on `null` the handler returns `null` at once; otherwise
it runs the `update` flipping `done` and returns the updated row. -/
def prismaToggle (d : List DbTodo) (i : String) : Option DbTodo × List DbTodo :=
  match dbFound d i with
  | none => (none, d)
  | some t => (some (flipD t), dbUpdateDone d i)

/-- Handler `todos.delete` of the database-backed variant: the handler
calls `prisma.todo.delete(\x7b where: \x7b id \x7d \x7d)` with no existence
check.  When the row exists the client removes and returns it; when it
does not, the client rejects with known request error P2025
(record not found), so the caller receives an error response, never a
`null` result. -/
def prismaDelete (d : List DbTodo) (i : String) :
    Except TrpcError DbTodo × List DbTodo :=
  match dbFound d i with
  | none => (Except.error TrpcError.notFound, d)
  | some t => (Except.ok t, dbErase d i)

/-- Field correspondence between the two variants: an in-memory record
read as a database row, `completed` landing in the `done` column. -/
def toDb (t : Todo) : DbTodo :=
  ⟨t.id, t.text, t.completed, t.createdAt⟩

@[simp] theorem toDb_id (t : Todo) : (toDb t).id = t.id := rfl

/-! ### Operation sequences over the in-memory variant -/

/-- A request against the in-memory todo router (queries `getAll` carry
no state effect and are omitted). -/
inductive Op where
  | add (newId text : String) (now : Nat)
  | toggle (i : String)
  | del (i : String)
deriving Repr, DecidableEq

/-- State effect of one request. -/
def step (s : List Todo) : Op → List Todo
  | Op.add newId text now => (addProc s newId text now).2
  | Op.toggle i => (toggleProc s i).2
  | Op.del i => (deleteProc s i).2

/-- State after a sequence of requests. -/
def run : List Todo → List Op → List Todo
  | s, [] => s
  | s, op :: ops => run (step s op) ops

/-- Ids of the todos a sequence of requests creates, in creation order:
one per `add` whose payload passes validation. -/
def createdIds : List Op → List String
  | [] => []
  | Op.add newId text _ :: ops =>
    if 1 ≤ text.length then newId :: createdIds ops else createdIds ops
  | Op.toggle _ :: ops => createdIds ops
  | Op.del _ :: ops => createdIds ops

/-! ### Basic lemmas about the in-memory handlers -/

@[simp] theorem flipT_id (t : Todo) : (flipT t).id = t.id := rfl

@[simp] theorem flipT_text (t : Todo) : (flipT t).text = t.text := rfl

@[simp] theorem flipT_completed (t : Todo) : (flipT t).completed = !t.completed := rfl

@[simp] theorem flipT_createdAt (t : Todo) : (flipT t).createdAt = t.createdAt := rfl

@[simp] theorem flipT_flipT (t : Todo) : flipT (flipT t) = t := by
  cases t
  simp [flipT]

theorem findTodo_of_not_mem (s : List Todo) (i : String) (h : i ∉ ids s) :
    findTodo s i = none := by
  induction s with
  | nil => rfl
  | cons t ts ih =>
    simp only [ids_cons, List.mem_cons, not_or] at h
    simp [findTodo, if_neg (Ne.symm h.1), ih h.2]

theorem findTodo_of_mem_nodup (s : List Todo) (t : Todo) (hmem : t ∈ s)
    (hnd : (ids s).Nodup) : findTodo s t.id = some t := by
  induction s with
  | nil => cases hmem
  | cons u ts ih =>
    simp only [ids_cons, List.nodup_cons] at hnd
    rcases List.mem_cons.mp hmem with h | h
    · subst h
      simp [findTodo]
    · have hne : u.id ≠ t.id := by
        intro he
        apply hnd.1
        rw [he]
        exact List.mem_map_of_mem Todo.id h
      simp [findTodo, if_neg hne, ih h hnd.2]

theorem toggleFound_eq_map (s : List Todo) (i : String) :
    toggleFound s i = (findTodo s i).map flipT := by
  induction s with
  | nil => rfl
  | cons t ts ih =>
    by_cases h : t.id = i
    · simp [toggleFound, findTodo, h]
    · simp [toggleFound, findTodo, h, ih]

theorem toggleList_of_not_mem (s : List Todo) (i : String) (h : i ∉ ids s) :
    toggleList s i = s := by
  induction s with
  | nil => rfl
  | cons t ts ih =>
    simp only [ids_cons, List.mem_cons, not_or] at h
    simp [toggleList, if_neg (Ne.symm h.1), ih h.2]

theorem ids_toggleList (s : List Todo) (i : String) :
    ids (toggleList s i) = ids s := by
  induction s with
  | nil => rfl
  | cons t ts ih =>
    by_cases h : t.id = i
    · simp [toggleList, h]
    · simp [toggleList, h, ih]

theorem findTodo_toggleList (s : List Todo) (i : String) :
    findTodo (toggleList s i) i = (findTodo s i).map flipT := by
  induction s with
  | nil => rfl
  | cons t ts ih =>
    by_cases h : t.id = i
    · simp [toggleList, findTodo, h]
    · simp [toggleList, findTodo, h, ih]

theorem map_flip_of_not_mem (s : List Todo) (i : String) (h : i ∉ ids s) :
    s.map (fun u => if u.id = i then flipT u else u) = s := by
  induction s with
  | nil => rfl
  | cons t ts ih =>
    simp only [ids_cons, List.mem_cons, not_or] at h
    simp [if_neg (Ne.symm h.1), ih h.2]

theorem toggleList_eq_map_of_nodup (s : List Todo) (i : String)
    (hnd : (ids s).Nodup) :
    toggleList s i = s.map (fun u => if u.id = i then flipT u else u) := by
  induction s with
  | nil => rfl
  | cons t ts ih =>
    simp only [ids_cons, List.nodup_cons] at hnd
    by_cases h : t.id = i
    · have : i ∉ ids ts := by
        rw [← h]
        exact hnd.1
      simp [toggleList, h, map_flip_of_not_mem ts i this]
    · simp [toggleList, h, ih hnd.2]

theorem deleteProc_fst (s : List Todo) (i : String) :
    (deleteProc s i).1 = findTodo s i := by
  induction s with
  | nil => rfl
  | cons t ts ih =>
    by_cases h : t.id = i
    · simp [deleteProc, findTodo, h]
    · simp [deleteProc, findTodo, h, ih]

theorem deleteProc_of_not_mem (s : List Todo) (i : String) (h : i ∉ ids s) :
    deleteProc s i = (none, s) := by
  induction s with
  | nil => rfl
  | cons t ts ih =>
    simp only [ids_cons, List.mem_cons, not_or] at h
    simp [deleteProc, if_neg (Ne.symm h.1), ih h.2]

theorem deleteProc_sublist (s : List Todo) (i : String) :
    ((deleteProc s i).2).Sublist s := by
  induction s with
  | nil => simp [deleteProc]
  | cons t ts ih =>
    by_cases h : t.id = i
    · simp [deleteProc, h]
    · simpa [deleteProc, h] using List.Sublist.cons₂ t ih

theorem deleteProc_length (s : List Todo) (i : String) (t : Todo)
    (h : findTodo s i = some t) :
    ((deleteProc s i).2).length + 1 = s.length := by
  induction s with
  | nil => simp [findTodo] at h
  | cons u ts ih =>
    by_cases hu : u.id = i
    · simp [deleteProc, hu]
    · simp only [findTodo, if_neg hu] at h
      simp [deleteProc, hu, ih h]

theorem not_mem_ids_deleteProc (s : List Todo) (i : String)
    (hnd : (ids s).Nodup) : i ∉ ids ((deleteProc s i).2) := by
  induction s with
  | nil => simp [deleteProc]
  | cons t ts ih =>
    simp only [ids_cons, List.nodup_cons] at hnd
    by_cases h : t.id = i
    · simp only [deleteProc, if_pos h]
      rw [← h]
      exact hnd.1
    · simp only [deleteProc, if_neg h, ids_cons, List.mem_cons, not_or]
      exact ⟨fun he => h he.symm, ih hnd.2⟩

theorem mem_deleteProc_of_ne (s : List Todo) (i : String) (u : Todo)
    (hu : u ∈ s) (hne : u.id ≠ i) : u ∈ (deleteProc s i).2 := by
  induction s with
  | nil => cases hu
  | cons t ts ih =>
    by_cases h : t.id = i
    · simp only [deleteProc, if_pos h]
      rcases List.mem_cons.mp hu with rfl | hmem
      · exact absurd h hne
      · exact hmem
    · simp only [deleteProc, if_neg h]
      rcases List.mem_cons.mp hu with rfl | hmem
      · exact List.mem_cons_self u _
      · exact List.mem_cons_of_mem t (ih hmem)

/-! ### Basic lemmas about the database-backed handlers -/

@[simp] theorem flipD_id (t : DbTodo) : (flipD t).id = t.id := rfl

@[simp] theorem flipD_text (t : DbTodo) : (flipD t).text = t.text := rfl

@[simp] theorem flipD_done (t : DbTodo) : (flipD t).done = !t.done := rfl

@[simp] theorem flipD_createdAt (t : DbTodo) : (flipD t).createdAt = t.createdAt := rfl

theorem dbFound_of_not_mem (d : List DbTodo) (i : String) (h : i ∉ dbIds d) :
    dbFound d i = none := by
  induction d with
  | nil => rfl
  | cons t ts ih =>
    simp only [dbIds_cons, List.mem_cons, not_or] at h
    simp [dbFound, if_neg (Ne.symm h.1), ih h.2]

theorem dbFound_of_mem_nodup (d : List DbTodo) (t : DbTodo) (hmem : t ∈ d)
    (hnd : (dbIds d).Nodup) : dbFound d t.id = some t := by
  induction d with
  | nil => cases hmem
  | cons u ts ih =>
    simp only [dbIds_cons, List.nodup_cons] at hnd
    rcases List.mem_cons.mp hmem with h | h
    · subst h
      simp [dbFound]
    · have hne : u.id ≠ t.id := by
        intro he
        apply hnd.1
        rw [he]
        exact List.mem_map_of_mem DbTodo.id h
      simp [dbFound, if_neg hne, ih h hnd.2]

theorem map_flipD_of_not_mem (d : List DbTodo) (i : String) (h : i ∉ dbIds d) :
    d.map (fun u => if u.id = i then flipD u else u) = d := by
  induction d with
  | nil => rfl
  | cons t ts ih =>
    simp only [dbIds_cons, List.mem_cons, not_or] at h
    simp [if_neg (Ne.symm h.1), ih h.2]

theorem dbUpdateDone_eq_map_of_nodup (d : List DbTodo) (i : String)
    (hnd : (dbIds d).Nodup) :
    dbUpdateDone d i = d.map (fun u => if u.id = i then flipD u else u) := by
  induction d with
  | nil => rfl
  | cons t ts ih =>
    simp only [dbIds_cons, List.nodup_cons] at hnd
    by_cases h : t.id = i
    · have : i ∉ dbIds ts := by
        rw [← h]
        exact hnd.1
      simp [dbUpdateDone, h, map_flipD_of_not_mem ts i this]
    · simp [dbUpdateDone, h, ih hnd.2]

/-! ### Commutation of the field correspondence with every handler -/

@[simp] theorem toDb_flipT (t : Todo) : toDb (flipT t) = flipD (toDb t) := rfl

theorem dbFound_map_toDb (s : List Todo) (i : String) :
    dbFound (s.map toDb) i = (findTodo s i).map toDb := by
  induction s with
  | nil => rfl
  | cons t ts ih =>
    by_cases h : t.id = i
    · simp [dbFound, findTodo, toDb_id, h]
    · simp [dbFound, findTodo, toDb_id, h, ih]

theorem dbUpdateDone_map_toDb (s : List Todo) (i : String) :
    dbUpdateDone (s.map toDb) i = (toggleList s i).map toDb := by
  induction s with
  | nil => rfl
  | cons t ts ih =>
    by_cases h : t.id = i
    · simp [dbUpdateDone, toggleList, toDb_id, h]
    · simp [dbUpdateDone, toggleList, toDb_id, h, ih]

theorem dbErase_map_toDb (s : List Todo) (i : String) :
    dbErase (s.map toDb) i = ((deleteProc s i).2).map toDb := by
  induction s with
  | nil => rfl
  | cons t ts ih =>
    by_cases h : t.id = i
    · simp [dbErase, deleteProc, toDb_id, h]
    · simp [dbErase, deleteProc, toDb_id, h, ih]

theorem toggleList_of_find_none (s : List Todo) (i : String)
    (h : findTodo s i = none) : toggleList s i = s := by
  induction s with
  | nil => rfl
  | cons t ts ih =>
    by_cases ht : t.id = i
    · simp [findTodo, ht] at h
    · simp only [findTodo, if_neg ht] at h
      simp [toggleList, ht, ih h]

theorem dbErase_length (d : List DbTodo) (i : String) (e : DbTodo)
    (h : dbFound d i = some e) : (dbErase d i).length + 1 = d.length := by
  induction d with
  | nil => simp [dbFound] at h
  | cons u ts ih =>
    by_cases hu : u.id = i
    · simp [dbErase, hu]
    · simp only [dbFound, if_neg hu] at h
      simp [dbErase, hu, ih h]

/-- Ids surviving any request sequence, in list order, form a
subsequence of the initial ids followed by the created ids in creation
order. -/
theorem ids_run_sublist (ops : List Op) (s : List Todo) :
    (ids (run s ops)).Sublist (ids s ++ createdIds ops) := by
  induction ops generalizing s with
  | nil => simp [run, createdIds]
  | cons op ops ih =>
    cases op with
    | add newId text now =>
      by_cases h : 1 ≤ text.length
      · have hstep : step s (Op.add newId text now)
            = s ++ [⟨newId, text, false, now⟩] := by
          simp [step, addProc, h]
        have hc : createdIds (Op.add newId text now :: ops)
            = newId :: createdIds ops := by
          simp [createdIds, h]
        have := ih (s ++ [⟨newId, text, false, now⟩])
        rw [run, hstep, hc]
        simpa [List.append_assoc] using this
      · have hstep : step s (Op.add newId text now) = s := by
          simp [step, addProc, h]
        have hc : createdIds (Op.add newId text now :: ops)
            = createdIds ops := by
          simp [createdIds, h]
        rw [run, hstep, hc]
        exact ih s
    | toggle i =>
      have hc : createdIds (Op.toggle i :: ops) = createdIds ops := rfl
      have := ih (toggleList s i)
      rw [run, hc]
      show (ids (run (toggleList s i) ops)).Sublist (ids s ++ createdIds ops)
      rwa [ids_toggleList] at this
    | del i =>
      have hc : createdIds (Op.del i :: ops) = createdIds ops := rfl
      have hsub : (ids ((deleteProc s i).2)).Sublist (ids s) :=
        (deleteProc_sublist s i).map Todo.id
      have := ih ((deleteProc s i).2)
      rw [run, hc]
      exact this.trans (hsub.append_right _)

example : (addProc [] "a1" "Buy milk" 0).1 = Except.ok ⟨"a1", "Buy milk", false, 0⟩ := by
  rfl

example : toggleProc [⟨"a1", "Buy milk", false, 0⟩] "a1"
    = (some ⟨"a1", "Buy milk", true, 0⟩, [⟨"a1", "Buy milk", true, 0⟩]) := by
  decide

example : deleteProc [⟨"a1", "Buy milk", true, 0⟩] "a1"
    = (some ⟨"a1", "Buy milk", true, 0⟩, []) := by
  decide

example : (prismaDelete [] "a1").1 = Except.error TrpcError.notFound := by
  rfl

/-! ### Claim C9 -/

/-- C9: the health status operation takes no input, never fails (its
response type admits no error outcome), and always returns the fixed
payload with status field OK, independently of the todo-collection
state, which it leaves untouched. -/
theorem health_status_constant (s : List Todo) :
    (statusProc s).1 = ⟨"OK"⟩ ∧ (statusProc s).2 = s :=
  ⟨rfl, rfl⟩

/-! ### Claim C6 -/

/-- C6: calling add with the empty string is rejected by the
`z.string().min(1)` schema before the handler executes: the call fails
with a validation error, no todo is created and the collection is
unchanged, in the in-memory and the database-backed variant alike. -/
theorem add_empty_text_rejected (s : List Todo) (d : List DbTodo)
    (newId newId₂ : String) (now now₂ : Nat) :
    addProc s newId "" now = (Except.error TrpcError.badRequest, s)
    ∧ prismaAdd d newId₂ "" now₂ = (Except.error TrpcError.badRequest, d) :=
  ⟨rfl, rfl⟩

/-! ### Claim C3 -/

/-- C3: toggling an id for which no todo exists returns the null/absent
result and leaves the collection exactly as it was, in the in-memory and
the database-backed variant alike. -/
theorem toggle_missing_id_noop (s : List Todo) (d : List DbTodo) (i : String)
    (hs : i ∉ ids s) (hd : i ∉ dbIds d) :
    toggleProc s i = (none, s) ∧ prismaToggle d i = (none, d) := by
  constructor
  · show (toggleFound s i, toggleList s i) = (none, s)
    rw [toggleFound_eq_map, findTodo_of_not_mem s i hs, toggleList_of_not_mem s i hs]
    rfl
  · show prismaToggle d i = (none, d)
    rw [prismaToggle, dbFound_of_not_mem d i hd]

/-- Witness for C3: a concrete one-element collection and an id absent
from it. -/
theorem toggle_missing_id_noop_witness :
    "zzz" ∉ ids [(⟨"a1", "Buy milk", false, 0⟩ : Todo)]
    ∧ "zzz" ∉ dbIds [(⟨"a1", "Buy milk", false, 0⟩ : DbTodo)]
    ∧ (toggleProc [⟨"a1", "Buy milk", false, 0⟩] "zzz"
        = (none, [⟨"a1", "Buy milk", false, 0⟩])
      ∧ prismaToggle [⟨"a1", "Buy milk", false, 0⟩] "zzz"
        = (none, [⟨"a1", "Buy milk", false, 0⟩])) :=
  ⟨by decide, by decide,
    toggle_missing_id_noop _ _ _ (by decide) (by decide)⟩

/-! ### Claim C5 -/

/-- C5: one toggle on an id present in the collection returns the found
record with its completion flag flipped exactly once (true to false,
false to true), and a second toggle with the same id on the resulting
collection returns the record with the flag back at its original
value. -/
theorem toggle_flips_once_and_twice_restores (s : List Todo) (i : String)
    (t : Todo) (h : findTodo s i = some t) :
    (toggleProc s i).1 = some (flipT t)
    ∧ (flipT t).completed = !t.completed
    ∧ (toggleProc ((toggleProc s i).2) i).1 = some t := by
  refine ⟨?_, rfl, ?_⟩
  · show toggleFound s i = some (flipT t)
    rw [toggleFound_eq_map, h]
    rfl
  · show toggleFound (toggleList s i) i = some t
    rw [toggleFound_eq_map, findTodo_toggleList, h]
    simp

/-- Witness for C5: a concrete collection holding the toggled id. -/
theorem toggle_flips_once_and_twice_restores_witness :
    findTodo [(⟨"a1", "Buy milk", false, 0⟩ : Todo)] "a1"
      = some ⟨"a1", "Buy milk", false, 0⟩
    ∧ ((toggleProc [(⟨"a1", "Buy milk", false, 0⟩ : Todo)] "a1").1
        = some (flipT ⟨"a1", "Buy milk", false, 0⟩)
      ∧ (flipT (⟨"a1", "Buy milk", false, 0⟩ : Todo)).completed
        = !(⟨"a1", "Buy milk", false, 0⟩ : Todo).completed
      ∧ (toggleProc ((toggleProc [(⟨"a1", "Buy milk", false, 0⟩ : Todo)] "a1").2) "a1").1
        = some ⟨"a1", "Buy milk", false, 0⟩) :=
  ⟨by decide, toggle_flips_once_and_twice_restores _ _ _ (by decide)⟩

/-! ### Claim C7 -/

/-- C7: deleting a todo present in a collection with pairwise distinct
ids (the specified identifier invariant) removes exactly that record and
no other: the handler returns it, the collection shrinks by exactly one,
its id no longer appears in a subsequent getAll, every other record is
still present, and nothing outside the original collection appears. -/
theorem delete_removes_exactly_one (s : List Todo) (t : Todo)
    (hmem : t ∈ s) (hnd : (ids s).Nodup) :
    (deleteProc s t.id).1 = some t
    ∧ ((deleteProc s t.id).2).length + 1 = s.length
    ∧ t.id ∉ ids ((deleteProc s t.id).2)
    ∧ (∀ u ∈ s, u.id ≠ t.id → u ∈ (deleteProc s t.id).2)
    ∧ ∀ u ∈ (deleteProc s t.id).2, u ∈ s := by
  have hf := findTodo_of_mem_nodup s t hmem hnd
  refine ⟨?_, deleteProc_length s t.id t hf, not_mem_ids_deleteProc s t.id hnd,
    fun u hu hne => mem_deleteProc_of_ne s t.id u hu hne,
    fun u hu => (deleteProc_sublist s t.id).subset hu⟩
  rw [deleteProc_fst]
  exact hf

/-- Witness for C7: a two-element collection, deleting the first. -/
theorem delete_removes_exactly_one_witness :
    (⟨"a1", "Buy milk", false, 0⟩ : Todo)
        ∈ [(⟨"a1", "Buy milk", false, 0⟩ : Todo), ⟨"b2", "Walk dog", true, 1⟩]
    ∧ (ids [(⟨"a1", "Buy milk", false, 0⟩ : Todo), ⟨"b2", "Walk dog", true, 1⟩]).Nodup
    ∧ ((deleteProc [(⟨"a1", "Buy milk", false, 0⟩ : Todo), ⟨"b2", "Walk dog", true, 1⟩]
          (⟨"a1", "Buy milk", false, 0⟩ : Todo).id).1 = some ⟨"a1", "Buy milk", false, 0⟩
      ∧ ((deleteProc [(⟨"a1", "Buy milk", false, 0⟩ : Todo), ⟨"b2", "Walk dog", true, 1⟩]
          (⟨"a1", "Buy milk", false, 0⟩ : Todo).id).2).length + 1
        = [(⟨"a1", "Buy milk", false, 0⟩ : Todo), ⟨"b2", "Walk dog", true, 1⟩].length
      ∧ (⟨"a1", "Buy milk", false, 0⟩ : Todo).id
        ∉ ids ((deleteProc [(⟨"a1", "Buy milk", false, 0⟩ : Todo), ⟨"b2", "Walk dog", true, 1⟩]
          (⟨"a1", "Buy milk", false, 0⟩ : Todo).id).2)
      ∧ (∀ u ∈ [(⟨"a1", "Buy milk", false, 0⟩ : Todo), ⟨"b2", "Walk dog", true, 1⟩],
          u.id ≠ (⟨"a1", "Buy milk", false, 0⟩ : Todo).id →
          u ∈ (deleteProc [(⟨"a1", "Buy milk", false, 0⟩ : Todo), ⟨"b2", "Walk dog", true, 1⟩]
            (⟨"a1", "Buy milk", false, 0⟩ : Todo).id).2)
      ∧ ∀ u ∈ (deleteProc [(⟨"a1", "Buy milk", false, 0⟩ : Todo), ⟨"b2", "Walk dog", true, 1⟩]
            (⟨"a1", "Buy milk", false, 0⟩ : Todo).id).2,
          u ∈ [(⟨"a1", "Buy milk", false, 0⟩ : Todo), ⟨"b2", "Walk dog", true, 1⟩]) :=
  ⟨by decide, by decide, delete_removes_exactly_one _ _ (by decide) (by decide)⟩

/-! ### Claim C8 -/

/-- C8: toggling a todo present in a collection with pairwise distinct
ids mutates only the completion flag of that one record: the returned
record keeps its id, text and creation timestamp with the flag flipped,
and the successor state maps each record to itself except the one with
the toggled id; the same holds of the database-backed variant. -/
theorem toggle_frames_other_fields_and_records (s : List Todo) (t : Todo)
    (d : List DbTodo) (e : DbTodo)
    (hmem : t ∈ s) (hnd : (ids s).Nodup)
    (hdm : e ∈ d) (hdnd : (dbIds d).Nodup) :
    (toggleProc s t.id).1 = some (flipT t)
    ∧ (flipT t).id = t.id ∧ (flipT t).text = t.text
    ∧ (flipT t).createdAt = t.createdAt ∧ (flipT t).completed = !t.completed
    ∧ (toggleProc s t.id).2 = s.map (fun u => if u.id = t.id then flipT u else u)
    ∧ (prismaToggle d e.id).1 = some (flipD e)
    ∧ (flipD e).id = e.id ∧ (flipD e).text = e.text
    ∧ (flipD e).createdAt = e.createdAt ∧ (flipD e).done = !e.done
    ∧ (prismaToggle d e.id).2 = d.map (fun u => if u.id = e.id then flipD u else u) := by
  have hf := findTodo_of_mem_nodup s t hmem hnd
  have hdf := dbFound_of_mem_nodup d e hdm hdnd
  refine ⟨?_, rfl, rfl, rfl, rfl, ?_, ?_, rfl, rfl, rfl, rfl, ?_⟩
  · show toggleFound s t.id = some (flipT t)
    rw [toggleFound_eq_map, hf]
    rfl
  · exact toggleList_eq_map_of_nodup s t.id hnd
  · simp [prismaToggle, hdf]
  · simp [prismaToggle, hdf, dbUpdateDone_eq_map_of_nodup d e.id hdnd]

/-- Witness for C8: concrete two-element collections in both variants,
toggling the second record. -/
theorem toggle_frames_other_fields_and_records_witness :
    (⟨"b2", "Walk dog", true, 1⟩ : Todo)
        ∈ [(⟨"a1", "Buy milk", false, 0⟩ : Todo), ⟨"b2", "Walk dog", true, 1⟩]
    ∧ (ids [(⟨"a1", "Buy milk", false, 0⟩ : Todo), ⟨"b2", "Walk dog", true, 1⟩]).Nodup
    ∧ (⟨"c3", "Water plants", false, 2⟩ : DbTodo) ∈ [(⟨"c3", "Water plants", false, 2⟩ : DbTodo)]
    ∧ (dbIds [(⟨"c3", "Water plants", false, 2⟩ : DbTodo)]).Nodup
    ∧ ((toggleProc [(⟨"a1", "Buy milk", false, 0⟩ : Todo), ⟨"b2", "Walk dog", true, 1⟩]
          (⟨"b2", "Walk dog", true, 1⟩ : Todo).id).1
        = some (flipT ⟨"b2", "Walk dog", true, 1⟩)
      ∧ (flipT (⟨"b2", "Walk dog", true, 1⟩ : Todo)).id = (⟨"b2", "Walk dog", true, 1⟩ : Todo).id
      ∧ (flipT (⟨"b2", "Walk dog", true, 1⟩ : Todo)).text
        = (⟨"b2", "Walk dog", true, 1⟩ : Todo).text
      ∧ (flipT (⟨"b2", "Walk dog", true, 1⟩ : Todo)).createdAt
        = (⟨"b2", "Walk dog", true, 1⟩ : Todo).createdAt
      ∧ (flipT (⟨"b2", "Walk dog", true, 1⟩ : Todo)).completed
        = !(⟨"b2", "Walk dog", true, 1⟩ : Todo).completed
      ∧ (toggleProc [(⟨"a1", "Buy milk", false, 0⟩ : Todo), ⟨"b2", "Walk dog", true, 1⟩]
          (⟨"b2", "Walk dog", true, 1⟩ : Todo).id).2
        = [(⟨"a1", "Buy milk", false, 0⟩ : Todo), ⟨"b2", "Walk dog", true, 1⟩].map
            (fun u => if u.id = (⟨"b2", "Walk dog", true, 1⟩ : Todo).id then flipT u else u)
      ∧ (prismaToggle [(⟨"c3", "Water plants", false, 2⟩ : DbTodo)]
          (⟨"c3", "Water plants", false, 2⟩ : DbTodo).id).1
        = some (flipD ⟨"c3", "Water plants", false, 2⟩)
      ∧ (flipD (⟨"c3", "Water plants", false, 2⟩ : DbTodo)).id
        = (⟨"c3", "Water plants", false, 2⟩ : DbTodo).id
      ∧ (flipD (⟨"c3", "Water plants", false, 2⟩ : DbTodo)).text
        = (⟨"c3", "Water plants", false, 2⟩ : DbTodo).text
      ∧ (flipD (⟨"c3", "Water plants", false, 2⟩ : DbTodo)).createdAt
        = (⟨"c3", "Water plants", false, 2⟩ : DbTodo).createdAt
      ∧ (flipD (⟨"c3", "Water plants", false, 2⟩ : DbTodo)).done
        = !(⟨"c3", "Water plants", false, 2⟩ : DbTodo).done
      ∧ (prismaToggle [(⟨"c3", "Water plants", false, 2⟩ : DbTodo)]
          (⟨"c3", "Water plants", false, 2⟩ : DbTodo).id).2
        = [(⟨"c3", "Water plants", false, 2⟩ : DbTodo)].map
            (fun u => if u.id = (⟨"c3", "Water plants", false, 2⟩ : DbTodo).id then flipD u else u)) :=
  ⟨by decide, by decide, by decide, by decide,
    toggle_frames_other_fields_and_records _ _ _ _
      (by decide) (by decide) (by decide) (by decide)⟩

/-! ### Claim C1 -/

/-- C1 counterexample: in the database-backed router, delete with an id
for which no row exists (id string x against an empty table) does not
return null: the handler calls the Prisma delete with no existence
check, the client rejects with the record-not-found error, and the
caller receives an error response. -/
theorem delete_missing_id_errors_in_db_variant :
    prismaDelete [] "x" = (Except.error TrpcError.notFound, []) :=
  rfl

/-- C1 amended: in the in-memory variant, delete with an absent id
returns null and leaves the collection unchanged, and delete with a
present id removes the record and returns it; in the database-backed
variant delete with a present id likewise removes and returns the row,
but delete with an absent id fails with a not-found storage error
instead of returning null, leaving the table unchanged. -/
theorem delete_contract_per_variant (s : List Todo) (d : List DbTodo)
    (a b : String) (t : Todo) (e : DbTodo)
    (ha : a ∉ ids s) (hb : findTodo s b = some t)
    (hc : a ∉ dbIds d) (he : dbFound d b = some e) :
    deleteProc s a = (none, s)
    ∧ (deleteProc s b).1 = some t
    ∧ ((deleteProc s b).2).length + 1 = s.length
    ∧ prismaDelete d a = (Except.error TrpcError.notFound, d)
    ∧ (prismaDelete d b).1 = Except.ok e
    ∧ ((prismaDelete d b).2).length + 1 = d.length := by
  refine ⟨deleteProc_of_not_mem s a ha, ?_, deleteProc_length s b t hb, ?_, ?_, ?_⟩
  · rw [deleteProc_fst]
    exact hb
  · rw [prismaDelete, dbFound_of_not_mem d a hc]
  · simp [prismaDelete, he]
  · simp [prismaDelete, he, dbErase_length d b e he]

/-- Witness for C1 amended: concrete one-element states, an absent id
and a present id, in both variants. -/
theorem delete_contract_per_variant_witness :
    "zzz" ∉ ids [(⟨"a1", "Buy milk", false, 0⟩ : Todo)]
    ∧ findTodo [(⟨"a1", "Buy milk", false, 0⟩ : Todo)] "a1"
      = some ⟨"a1", "Buy milk", false, 0⟩
    ∧ "zzz" ∉ dbIds [(⟨"a1", "Buy milk", false, 0⟩ : DbTodo)]
    ∧ dbFound [(⟨"a1", "Buy milk", false, 0⟩ : DbTodo)] "a1"
      = some ⟨"a1", "Buy milk", false, 0⟩
    ∧ (deleteProc [(⟨"a1", "Buy milk", false, 0⟩ : Todo)] "zzz"
        = (none, [⟨"a1", "Buy milk", false, 0⟩])
      ∧ (deleteProc [(⟨"a1", "Buy milk", false, 0⟩ : Todo)] "a1").1
        = some ⟨"a1", "Buy milk", false, 0⟩
      ∧ ((deleteProc [(⟨"a1", "Buy milk", false, 0⟩ : Todo)] "a1").2).length + 1
        = [(⟨"a1", "Buy milk", false, 0⟩ : Todo)].length
      ∧ prismaDelete [(⟨"a1", "Buy milk", false, 0⟩ : DbTodo)] "zzz"
        = (Except.error TrpcError.notFound, [⟨"a1", "Buy milk", false, 0⟩])
      ∧ (prismaDelete [(⟨"a1", "Buy milk", false, 0⟩ : DbTodo)] "a1").1
        = Except.ok ⟨"a1", "Buy milk", false, 0⟩
      ∧ ((prismaDelete [(⟨"a1", "Buy milk", false, 0⟩ : DbTodo)] "a1").2).length + 1
        = [(⟨"a1", "Buy milk", false, 0⟩ : DbTodo)].length) :=
  ⟨by decide, by decide, by decide, by decide,
    delete_contract_per_variant _ _ _ _ _ _
      (by decide) (by decide) (by decide) (by decide)⟩

/-! ### Claim C2 -/

/-- C2 counterexample: the in-memory add performs no uniqueness check on
the randomly generated id string, so on the run where the generator
emits a string already in use (here abc, against a collection holding a
todo with id abc) the returned todo's id equals an existing id. -/
theorem add_can_collide_with_existing_id :
    (addProc [⟨"abc", "old entry", false, 0⟩] "abc" "new entry" 1).1
      = Except.ok ⟨"abc", "new entry", false, 1⟩
    ∧ "abc" ∈ ids [(⟨"abc", "old entry", false, 0⟩ : Todo)] :=
  ⟨rfl, by decide⟩

/-- C2 amended: for every non-empty text, add returns a newly created
todo with completion flag false, appended to the collection; its id is
the freshly generated random string, so it differs from every existing
id exactly when the generator avoided a collision — a condition the code
does not check. -/
theorem add_creates_uncompleted_with_generator_id (s : List Todo)
    (newId text : String) (now : Nat)
    (hx : 1 ≤ text.length) (hfresh : newId ∉ ids s) :
    (addProc s newId text now).1 = Except.ok ⟨newId, text, false, now⟩
    ∧ (addProc s newId text now).2 = s ++ [⟨newId, text, false, now⟩]
    ∧ ∀ u ∈ s, u.id ≠ newId := by
  refine ⟨?_, ?_, ?_⟩
  · simp [addProc, hx]
  · simp [addProc, hx]
  · intro u hu he
    exact hfresh (he ▸ List.mem_map_of_mem Todo.id hu)

/-- Witness for C2 amended: a fresh generated id against a one-element
collection. -/
theorem add_creates_uncompleted_with_generator_id_witness :
    1 ≤ ("Walk dog" : String).length
    ∧ "b2" ∉ ids [(⟨"a1", "Buy milk", false, 0⟩ : Todo)]
    ∧ ((addProc [(⟨"a1", "Buy milk", false, 0⟩ : Todo)] "b2" "Walk dog" 1).1
        = Except.ok ⟨"b2", "Walk dog", false, 1⟩
      ∧ (addProc [(⟨"a1", "Buy milk", false, 0⟩ : Todo)] "b2" "Walk dog" 1).2
        = [⟨"a1", "Buy milk", false, 0⟩, ⟨"b2", "Walk dog", false, 1⟩]
      ∧ ∀ u ∈ [(⟨"a1", "Buy milk", false, 0⟩ : Todo)], u.id ≠ "b2") :=
  ⟨by decide, by decide,
    add_creates_uncompleted_with_generator_id _ _ _ _ (by decide) (by decide)⟩

/-! ### Claim C4 -/

/-- C4 counterexample: starting the two variants from the same empty
(correspondence-related) collection, the single call delete of id x
returns the null result in the in-memory router but an error response in
the database-backed router, so the two variants do not return the same
results on every call sequence. -/
theorem variants_disagree_on_missing_delete :
    (deleteProc [] "x").1 = none
    ∧ prismaDelete (List.map toDb []) "x"
      = (Except.error TrpcError.notFound, List.map toDb []) :=
  ⟨rfl, rfl⟩

/-- C4 amended: under the field correspondence (in-memory completed as
the database column done, storage-generated ids and timestamps
identified) the two routers agree on getAll, on add (success and
validation failure alike), on toggle at every id, and on delete of a
present id, returning corresponding results and leaving corresponding
collections; they disagree only on delete of an absent id, where the
in-memory router returns null and the database-backed one errors. -/
theorem variants_agree_except_missing_delete (s : List Todo)
    (newId text i j : String) (now : Nat) (t : Todo)
    (ht : findTodo s j = some t) :
    prismaGetAll (s.map toDb) = (((getAll s).1).map toDb, ((getAll s).2).map toDb)
    ∧ prismaAdd (s.map toDb) newId text now
      = (((addProc s newId text now).1).map toDb, ((addProc s newId text now).2).map toDb)
    ∧ prismaToggle (s.map toDb) i
      = (((toggleProc s i).1).map toDb, ((toggleProc s i).2).map toDb)
    ∧ (prismaDelete (s.map toDb) j).1 = Except.ok (toDb t)
    ∧ (deleteProc s j).1 = some t
    ∧ (prismaDelete (s.map toDb) j).2 = ((deleteProc s j).2).map toDb := by
  have hd1 : dbFound (s.map toDb) j = some (toDb t) := by
    rw [dbFound_map_toDb, ht]
    rfl
  refine ⟨rfl, ?_, ?_, ?_, ?_, ?_⟩
  · by_cases hx : 1 ≤ text.length
    · simp [prismaAdd, addProc, hx, Except.map, toDb]
    · simp [prismaAdd, addProc, hx, Except.map]
  · cases hft : findTodo s i with
    | none =>
      have h1 : dbFound (s.map toDb) i = none := by
        rw [dbFound_map_toDb, hft]
        rfl
      have h2 : toggleList s i = s := toggleList_of_find_none s i hft
      show prismaToggle (s.map toDb) i
        = ((toggleFound s i).map toDb, (toggleList s i).map toDb)
      rw [toggleFound_eq_map, hft, h2]
      simp [prismaToggle, h1]
    | some u =>
      have h1 : dbFound (s.map toDb) i = some (toDb u) := by
        rw [dbFound_map_toDb, hft]
        rfl
      show prismaToggle (s.map toDb) i
        = ((toggleFound s i).map toDb, (toggleList s i).map toDb)
      rw [toggleFound_eq_map, hft]
      simp [prismaToggle, h1, dbUpdateDone_map_toDb]
  · simp [prismaDelete, hd1]
  · rw [deleteProc_fst]
    exact ht
  · simp [prismaDelete, hd1, dbErase_map_toDb]

/-- Witness for C4 amended: the one-element collection with id a1 on
both sides, toggling and deleting that id and adding one todo. -/
theorem variants_agree_except_missing_delete_witness :
    findTodo [(⟨"a1", "Buy milk", false, 0⟩ : Todo)] "a1"
      = some ⟨"a1", "Buy milk", false, 0⟩
    ∧ (prismaGetAll ([(⟨"a1", "Buy milk", false, 0⟩ : Todo)].map toDb)
        = (((getAll [(⟨"a1", "Buy milk", false, 0⟩ : Todo)]).1).map toDb,
           ((getAll [(⟨"a1", "Buy milk", false, 0⟩ : Todo)]).2).map toDb)
      ∧ prismaAdd ([(⟨"a1", "Buy milk", false, 0⟩ : Todo)].map toDb) "b2" "Walk dog" 1
        = (((addProc [(⟨"a1", "Buy milk", false, 0⟩ : Todo)] "b2" "Walk dog" 1).1).map toDb,
           ((addProc [(⟨"a1", "Buy milk", false, 0⟩ : Todo)] "b2" "Walk dog" 1).2).map toDb)
      ∧ prismaToggle ([(⟨"a1", "Buy milk", false, 0⟩ : Todo)].map toDb) "a1"
        = (((toggleProc [(⟨"a1", "Buy milk", false, 0⟩ : Todo)] "a1").1).map toDb,
           ((toggleProc [(⟨"a1", "Buy milk", false, 0⟩ : Todo)] "a1").2).map toDb)
      ∧ (prismaDelete ([(⟨"a1", "Buy milk", false, 0⟩ : Todo)].map toDb) "a1").1
        = Except.ok (toDb ⟨"a1", "Buy milk", false, 0⟩)
      ∧ (deleteProc [(⟨"a1", "Buy milk", false, 0⟩ : Todo)] "a1").1
        = some ⟨"a1", "Buy milk", false, 0⟩
      ∧ (prismaDelete ([(⟨"a1", "Buy milk", false, 0⟩ : Todo)].map toDb) "a1").2
        = ((deleteProc [(⟨"a1", "Buy milk", false, 0⟩ : Todo)] "a1").2).map toDb) :=
  ⟨by decide, variants_agree_except_missing_delete _ _ _ _ _ _ _ (by decide)⟩

/-! ### Claim C10 -/

/-- C10: in the in-memory variant getAll presents the todos in creation
order: after any request sequence the ids of the surviving todos, in
list order, form a subsequence of the initial ids followed by the ids
created by the sequence in creation order; moreover a validated add
appends the new todo at the end, toggle leaves the id sequence
unchanged, and delete keeps the remaining todos in their relative
order. -/
theorem getAll_order_is_creation_order (s : List Todo) (ops : List Op)
    (newId text i : String) (now : Nat) (hx : 1 ≤ text.length) :
    (ids (run s ops)).Sublist (ids s ++ createdIds ops)
    ∧ (addProc s newId text now).2 = s ++ [⟨newId, text, false, now⟩]
    ∧ ids ((toggleProc s i).2) = ids s
    ∧ ((deleteProc s i).2).Sublist s := by
  refine ⟨ids_run_sublist ops s, ?_, ids_toggleList s i, deleteProc_sublist s i⟩
  simp [addProc, hx]

/-- Witness for C10: a concrete three-request sequence over a one-element
initial collection. -/
theorem getAll_order_is_creation_order_witness :
    1 ≤ ("Walk dog" : String).length
    ∧ ((ids (run [(⟨"a1", "Buy milk", false, 0⟩ : Todo)]
          [Op.add "b2" "Walk dog" 1, Op.toggle "a1", Op.del "a1"])).Sublist
        (ids [(⟨"a1", "Buy milk", false, 0⟩ : Todo)]
          ++ createdIds [Op.add "b2" "Walk dog" 1, Op.toggle "a1", Op.del "a1"])
      ∧ (addProc [(⟨"a1", "Buy milk", false, 0⟩ : Todo)] "b2" "Walk dog" 1).2
        = [⟨"a1", "Buy milk", false, 0⟩] ++ [⟨"b2", "Walk dog", false, 1⟩]
      ∧ ids ((toggleProc [(⟨"a1", "Buy milk", false, 0⟩ : Todo)] "a1").2)
        = ids [(⟨"a1", "Buy milk", false, 0⟩ : Todo)]
      ∧ ((deleteProc [(⟨"a1", "Buy milk", false, 0⟩ : Todo)] "a1").2).Sublist
          [(⟨"a1", "Buy milk", false, 0⟩ : Todo)]) :=
  ⟨by decide,
    getAll_order_is_creation_order _ _ _ _ _ _ (by decide)⟩

end TodoSpec
